import Mathlib

/-!
# aws-lambda-profile: the option builder, Start, Stop and the S3 key

A shallow embedding of `profile.go`.  Go strings are Lean strings; the calls
that leave the package (the profiling engine, `os.Open`, the SDK
configuration loader, `PutObject`, `log.Fatalf`) are recorded as events of a
trace, and their results are read from a `World` that fixes how each of
them answers.
-/

set_option autoImplicit false

namespace AwsLambdaProfile

/-! ## Collaborators -/

/-- The engine options of `github.com/pkg/profile` that `profile.go` refers to.
They are never inspected by the adapter, only collected and handed over. -/
inductive PkgOption where
  | Quiet
  | CPUProfile
  | MemProfile
  | ProfilePath (path : String)
  deriving DecidableEq, Repr

/-- The running engine session returned by `pkgprofile.Start(pkgOptions...)`,
identified by the option list it was started with. -/
structure PkgProfile where
  options : List PkgOption
  deriving DecidableEq, Repr

/-- Model of `pkgprofile.Start`. -/
def pkgprofileStart (pkgOptions : List PkgOption) : PkgProfile :=
  ⟨pkgOptions⟩

/-- The two fields of `lambdacontext.LambdaContext` that `generateS3Path` reads. -/
structure LambdaContext where
  AwsRequestID : String
  InvokedFunctionArn : String
  deriving DecidableEq, Repr

/-- Keys under which a value can be stored in a `context.Context`: the private
key of package `lambdacontext`, or some other key. -/
inductive CtxKey where
  | lambdaContextKey
  | other (id : Nat)
  deriving DecidableEq, Repr

/-- Values stored in a `context.Context`: a `*LambdaContext`, or a value of
some other dynamic type. -/
inductive CtxVal where
  | lambdaContext (lc : LambdaContext)
  | other (v : String)
  deriving DecidableEq, Repr

/-- Model of `context.Context`: the empty background context, or a parent
extended by one key/value pair (`context.WithValue`). -/
inductive Context where
  | Background
  | WithValue (parent : Context) (key : CtxKey) (val : CtxVal)
  deriving Repr

/-- Model of `ctx.Value(key)`: the innermost value stored under `key`. -/
def Context.Value : Context → CtxKey → Option CtxVal
  | .Background, _ => none
  | .WithValue parent key val, k => if k = key then some val else parent.Value k

/-- Model of `lambdacontext.FromContext`: the value under the package key,
type-asserted to `*LambdaContext`. -/
def FromContext (ctx : Context) : Option LambdaContext :=
  match ctx.Value CtxKey.lambdaContextKey with
  | some (CtxVal.lambdaContext lc) => some lc
  | _ => none

/-- Model of `lambdacontext.NewContext`: the parent extended with the lambda
context under the package key. -/
def NewContext (parent : Context) (lc : LambdaContext) : Context :=
  Context.WithValue parent CtxKey.lambdaContextKey (CtxVal.lambdaContext lc)

/-! ## `strings.Replace` and `fmt.Sprintf` -/

/-- Model of `strings.Index` on character lists: the position of the first
occurrence of `old` in `s`. -/
def stringsIndex (old : List Char) : List Char → Option Nat
  | [] => if old = [] then some 0 else none
  | c :: cs =>
    if old.isPrefixOf (c :: cs) then some 0
    else (stringsIndex old cs).map (· + 1)

/-- The replacement loop of `strings.Replace` for a non-empty `old`: replace the
first `n` occurrences, scanning left to right. -/
def replaceLoop (old new : List Char) : Nat → List Char → List Char
  | 0, s => s
  | n + 1, s =>
    match stringsIndex old s with
    | none => s
    | some j => s.take j ++ new ++ replaceLoop old new n (s.drop (j + old.length))

/-- The replacement loop of `strings.Replace` for an empty `old`: insert `new`
before each of the first `n` positions (the end of the string counts as one). -/
def insertLoop (new : List Char) : Nat → List Char → List Char
  | 0, s => s
  | _ + 1, [] => new
  | n + 1, c :: cs => new ++ c :: insertLoop new n cs

/-- Model of `strings.Replace(s, old, new, n)`; a negative `n` means no limit. -/
def stringsReplace (s old new : String) (n : Int) : String :=
  if old = new ∨ n = 0 then s
  else
    let k : Nat := if n < 0 then s.length + 1 else n.toNat
    if old.data = [] then String.mk (insertLoop new.data k s.data)
    else String.mk (replaceLoop old.data new.data k s.data)

/-- Model of `fmt.Sprintf("%s/%s/", a, b)`. -/
def sprintfSlash (a b : String) : String :=
  a ++ "/" ++ b ++ "/"

/-! ## The adapter -/

/-- Profile is the adapter state of `profile.go`; `p` is the engine session
(`none` for the nil interface before `Start` has run). -/
structure Profile where
  bucket : String
  region : String
  localPath : String
  p : Option PkgProfile
  deriving DecidableEq, Repr

/-- The zero value of `Profile` (`var profile Profile`). -/
def Profile.zero : Profile :=
  ⟨"", "", "", none⟩

/-- The Go type `func(*Profile) func(pkg *pkgprofile.Profile)`: the option
updates the profile it is given and returns an engine option or nil. -/
abbrev OptionFn := Profile → Profile × Option PkgOption

/-- Quiet suppresses informational messages during profiling. -/
def Quiet : OptionFn :=
  fun p => (p, some PkgOption.Quiet)

/-- CPUProfile enables CPU profiling. -/
def CPUProfile : OptionFn :=
  fun p => ({ p with localPath := "/tmp/cpu.pprof" }, some PkgOption.CPUProfile)

/-- MemProfile enables memory profiling. -/
def MemProfile : OptionFn :=
  fun p => ({ p with localPath := "/tmp/mem.pprof" }, some PkgOption.MemProfile)

/-- S3Bucket sets the name of the S3 bucket to upload the profile to. -/
def S3Bucket (bucket : String) : OptionFn :=
  fun p => ({ p with bucket := bucket }, none)

/-- AWSRegion sets the AWS region of the S3 bucket. -/
def AWSRegion (region : String) : OptionFn :=
  fun p => ({ p with region := region }, none)

/-- The `for _, option := range options` loop of `Start`: apply each option to
the profile and append the engine option it returns unless it is nil. -/
def applyOptions : List OptionFn → Profile → List PkgOption → Profile × List PkgOption
  | [], profile, pkgOptions => (profile, pkgOptions)
  | opt :: rest, profile, pkgOptions =>
    match opt profile with
    | (profile1, none) => applyOptions rest profile1 pkgOptions
    | (profile1, some o) => applyOptions rest profile1 (pkgOptions ++ [o])

/-- Start starts a new profiling session. -/
def Start (options : List OptionFn) : Profile :=
  let r := applyOptions options Profile.zero []
  let profile := r.1
  let pkgOptions := r.2 ++ [PkgOption.ProfilePath "/tmp"]
  let profile := if profile.region = "" then { profile with region := "us-east-1" } else profile
  let profile := if profile.localPath = "" then { profile with localPath := "/tmp/cpu.pprof" } else profile
  { profile with p := some (pkgprofileStart pkgOptions) }

/-- The body of `generateS3Path` with the context of the lookup made explicit.
The source never passes anything but `context.Background()`: see
`generateS3Path`, which is the function of the program. -/
def generateS3PathFrom (ctx : Context) (p : Profile) : String :=
  match FromContext ctx with
  | none => stringsReplace p.localPath "/tmp/" "unknown/" 1
  | some lc =>
    stringsReplace p.localPath "/tmp/" (sprintfSlash lc.InvokedFunctionArn lc.AwsRequestID) 1

/-- generateS3Path generates the S3 path; as in the source, the lambda context
is looked up in `context.Background()`. -/
def generateS3Path (p : Profile) : String :=
  generateS3PathFrom Context.Background p

/-! ## Effects of `Stop` -/

/-- How the outside world answers: the error (if any) of `os.Open` on a path,
of `config.LoadDefaultConfig` for a region, of `PutObject` for a bucket and
key, and of `file.Close`. -/
structure World where
  openErr : String → Option String
  configErr : String → Option String
  putErr : String → String → Option String
  closeErr : String → Option String

/-- Calls that leave the package, in the order they are made. -/
inductive Event where
  | engineStop
  | osOpen (path : String)
  | loadDefaultConfig (region : String)
  | putObject (bucket key : String)
  | fileClose (path : String)
  | fatalf (msg : String)
  deriving DecidableEq, Repr

/-- How a call ends: it returns to its caller, `log.Fatalf` has ended the
process with `os.Exit(1)` (deferred functions are not run), or a run-time
panic has. -/
inductive Outcome where
  | returned
  | exited
  | panicked
  deriving DecidableEq, Repr

/-- A finished run: the events it produced and how it ended. -/
structure Run where
  trace : List Event
  outcome : Outcome
  deriving DecidableEq, Repr

/-- The deferred closure of `uploadToS3`: close the file, fatal on error.
It runs when `uploadToS3` returns. -/
def deferredClose (w : World) (path : String) : Run :=
  match w.closeErr path with
  | some err => ⟨[Event.fileClose path, Event.fatalf ("unable to close file, " ++ err)], Outcome.exited⟩
  | none => ⟨[Event.fileClose path], Outcome.returned⟩

/-- uploadToS3 uploads the profile to S3 if the bucket name is provided. -/
def uploadToS3 (w : World) (p : Profile) : Run :=
  if p.bucket = "" then
    ⟨[Event.fatalf "bucket name is not provided, skipping upload to S3"], Outcome.exited⟩
  else
    match w.openErr p.localPath with
    | some err =>
      ⟨[Event.osOpen p.localPath,
        Event.fatalf ("unable to open file " ++ p.localPath ++ ", " ++ err)], Outcome.exited⟩
    | none =>
      let s3Path := generateS3Path p
      match w.configErr p.region with
      | some err =>
        ⟨[Event.osOpen p.localPath, Event.loadDefaultConfig p.region,
          Event.fatalf ("unable to load SDK config, " ++ err)], Outcome.exited⟩
      | none =>
        match w.putErr p.bucket s3Path with
        | some err =>
          ⟨[Event.osOpen p.localPath, Event.loadDefaultConfig p.region,
            Event.putObject p.bucket s3Path,
            Event.fatalf ("unable to upload file, " ++ err)], Outcome.exited⟩
        | none =>
          let d := deferredClose w p.localPath
          ⟨[Event.osOpen p.localPath, Event.loadDefaultConfig p.region,
            Event.putObject p.bucket s3Path] ++ d.trace, d.outcome⟩

/-- Stop stops the profile and flushes any unwritten data.  Calling `Stop` on
the nil engine of a profile that `Start` did not build is a run-time panic. -/
def Stop (w : World) (p : Profile) : Run :=
  match p.p with
  | none => ⟨[], Outcome.panicked⟩
  | some _ =>
    let u := uploadToS3 w p
    ⟨Event.engineStop :: u.trace, u.outcome⟩

/-- A world in which every outside call succeeds. -/
def World.allOk : World :=
  ⟨fun _ => none, fun _ => none, fun _ _ => none, fun _ => none⟩

/-- A world in which only loading the SDK configuration fails. -/
def World.configFails : World :=
  ⟨fun _ => none, fun _ => some "no config", fun _ _ => none, fun _ => none⟩

/-- A world in which only `PutObject` fails. -/
def World.putFails : World :=
  ⟨fun _ => none, fun _ => none, fun _ _ => some "access denied", fun _ => none⟩

/-! ## The recognised options, as data -/

/-- The five options the package exports, as values a claim can quantify over. -/
inductive Opt where
  | quiet
  | cpu
  | mem
  | bucket (name : String)
  | region (name : String)
  deriving DecidableEq, Repr

/-- The option function each recognised option stands for. -/
def Opt.fn : Opt → OptionFn
  | .quiet => Quiet
  | .cpu => CPUProfile
  | .mem => MemProfile
  | .bucket b => S3Bucket b
  | .region r => AWSRegion r

/-- The session `Start` builds from a sequence of recognised options. -/
def startWith (opts : List Opt) : Profile :=
  Start (opts.map Opt.fn)

/-- The local path a mode-selecting option implies; `none` for the others. -/
def modePath : Opt → Option String
  | .cpu => some "/tmp/cpu.pprof"
  | .mem => some "/tmp/mem.pprof"
  | _ => none

/-- The value an `AWSRegion` option carries; `none` for the others. -/
def regionValue : Opt → Option String
  | .region r => some r
  | _ => none

/-- The value an `S3Bucket` option carries; `none` for the others. -/
def bucketValue : Opt → Option String
  | .bucket b => some b
  | _ => none

/-- The engine option a recognised option returns; `none` for `S3Bucket` and
`AWSRegion`, which return nil. -/
def engineOption : Opt → Option PkgOption
  | .quiet => some PkgOption.Quiet
  | .cpu => some PkgOption.CPUProfile
  | .mem => some PkgOption.MemProfile
  | _ => none

/-- Whether the option is one of `Quiet`, `CPUProfile`, `MemProfile`. -/
def isEngineOpt : Opt → Bool
  | .quiet => true
  | .cpu => true
  | .mem => true
  | _ => false

/-- The last value, in list order, that `f` extracts from a sequence. -/
def lastOf {α β : Type} (f : α → Option β) (l : List α) : Option β :=
  (l.filterMap f).getLast?

/-- The engine option list of a started session (empty before `Start`). -/
def Profile.engineOptions (p : Profile) : List PkgOption :=
  match p.p with
  | some e => e.options
  | none => []

/-! ## The option loop on recognised options -/

theorem lastOf_cons_none {α β : Type} (f : α → Option β) (a : α) (l : List α) (d : β)
    (h : f a = none) : (lastOf f (a :: l)).getD d = (lastOf f l).getD d := by
  simp [lastOf, List.filterMap_cons, h]

theorem lastOf_cons_some {α β : Type} (f : α → Option β) (a : α) (l : List α) (d b : β)
    (h : f a = some b) : (lastOf f (a :: l)).getD d = (lastOf f l).getD b := by
  simp [lastOf, List.filterMap_cons, h, List.getLast?_cons]

/-- The loop of `Start` on recognised options: each field ends up with the
last value written to it (or keeps its initial value), and the engine options
are appended in order. -/
theorem applyOptions_recognised (opts : List Opt) (p : Profile) (acc : List PkgOption) :
    applyOptions (opts.map Opt.fn) p acc =
      (⟨(lastOf bucketValue opts).getD p.bucket, (lastOf regionValue opts).getD p.region,
        (lastOf modePath opts).getD p.localPath, p.p⟩,
       acc ++ opts.filterMap engineOption) := by
  induction opts generalizing p acc with
  | nil => simp [applyOptions, lastOf]
  | cons o os ih =>
    cases o <;>
      simp [applyOptions, Opt.fn, Quiet, CPUProfile, MemProfile, S3Bucket, AWSRegion, ih,
        lastOf_cons_none, lastOf_cons_some, bucketValue, regionValue, modePath, engineOption]

/-- The session `Start` builds from recognised options, field by field. -/
theorem startWith_eq (opts : List Opt) :
    startWith opts =
      ⟨(lastOf bucketValue opts).getD "",
       if (lastOf regionValue opts).getD "" = "" then "us-east-1"
         else (lastOf regionValue opts).getD "",
       if (lastOf modePath opts).getD "" = "" then "/tmp/cpu.pprof"
         else (lastOf modePath opts).getD "",
       some ⟨opts.filterMap engineOption ++ [PkgOption.ProfilePath "/tmp"]⟩⟩ := by
  simp only [startWith, Start, applyOptions_recognised, Profile.zero, pkgprofileStart]
  split_ifs <;> simp_all

/-- A value `lastOf` finds is a value `f` gives on some element. -/
theorem lastOf_some {α β : Type} (f : α → Option β) (l : List α) (b : β)
    (h : lastOf f l = some b) : ∃ a ∈ l, f a = some b := by
  have hm : b ∈ l.filterMap f := List.mem_of_getLast?_eq_some h
  simpa [List.mem_filterMap] using hm

theorem lastOf_modePath (opts : List Opt) :
    lastOf modePath opts = none ∨ lastOf modePath opts = some "/tmp/cpu.pprof" ∨
      lastOf modePath opts = some "/tmp/mem.pprof" := by
  cases h : lastOf modePath opts with
  | none => exact Or.inl rfl
  | some x =>
    obtain ⟨o, _, ho⟩ := lastOf_some modePath opts x h
    cases o <;> simp [modePath] at ho <;> simp [← ho]

/-- The local path of a session built by `Start` from recognised options. -/
theorem startWith_localPath (opts : List Opt) :
    (startWith opts).localPath = (lastOf modePath opts).getD "/tmp/cpu.pprof" := by
  rw [startWith_eq]
  rcases lastOf_modePath opts with h | h | h <;> simp [h]

theorem startWith_localPath_cases (opts : List Opt) :
    (startWith opts).localPath = "/tmp/cpu.pprof" ∨
      (startWith opts).localPath = "/tmp/mem.pprof" := by
  rw [startWith_localPath]
  rcases lastOf_modePath opts with h | h | h <;> simp [h]

/-! ## The key derivation -/

theorem stringsIndex_tmp (rest : List Char) :
    stringsIndex "/tmp/".data ("/tmp/".data ++ rest) = some 0 := by
  simp [stringsIndex, List.isPrefixOf]

/-- Replacing the first `/tmp/` of a path that starts with `/tmp/`. -/
theorem stringsReplace_tmp (rest new : String) :
    stringsReplace ("/tmp/" ++ rest) "/tmp/" new 1 = new ++ rest := by
  unfold stringsReplace
  by_cases h : "/tmp/" = new
  · subst h; simp
  · have hd : ("/tmp/" : String).data ≠ [] := by decide
    have hk : (if (1 : Int) < 0 then ("/tmp/" ++ rest).length + 1 else (1 : Int).toNat) = 1 := by
      simp
    simp only [h, false_or, one_ne_zero, if_false, hd, hk]
    apply String.ext
    have hi := stringsIndex_tmp rest.data
    simp only [String.data_append, replaceLoop, hi]
    simp [replaceLoop]

/-- The key when the lookup finds no identity, for a path under `/tmp/`. -/
theorem generateS3PathFrom_missing (ctx : Context) (p : Profile) (rest : String)
    (h : FromContext ctx = none) (hp : p.localPath = "/tmp/" ++ rest) :
    generateS3PathFrom ctx p = "unknown/" ++ rest := by
  simp only [generateS3PathFrom, h, hp, stringsReplace_tmp]

theorem fromContext_background : FromContext Context.Background = none := rfl

/-- The key `generateS3Path` derives for a session built by `Start`. -/
theorem generateS3Path_startWith (opts : List Opt) :
    generateS3Path (startWith opts) = "unknown/cpu.pprof" ∨
      generateS3Path (startWith opts) = "unknown/mem.pprof" := by
  rcases startWith_localPath_cases opts with h | h
  · left
    exact generateS3PathFrom_missing _ _ "cpu.pprof" fromContext_background h
  · right
    exact generateS3PathFrom_missing _ _ "mem.pprof" fromContext_background h

theorem length_filterMap_engineOption (opts : List Opt) :
    (opts.filterMap engineOption).length = opts.countP isEngineOpt := by
  induction opts with
  | nil => rfl
  | cons o os ih => cases o <;> simp [engineOption, isEngineOpt, List.filterMap_cons, ih]

/-- Neither `unknown/` key has the shape `<arn>/<request>/<rest>`: it holds a
single `/`. -/
theorem unknown_key_ne (k a q rest : String)
    (hk : k = "unknown/cpu.pprof" ∨ k = "unknown/mem.pprof") :
    k ≠ a ++ "/" ++ q ++ "/" ++ rest := by
  intro h
  have hc : k.data.count '/' = 1 := by
    rcases hk with rfl | rfl <;> decide
  have hd := congrArg (fun s : String => s.data.count '/') h
  simp only [String.data_append, List.count_append] at hd
  have h1 : ("/" : String).data.count '/' = 1 := by decide
  rw [hc, h1] at hd
  omega

theorem fromContext_newContext (lc : LambdaContext) :
    FromContext (NewContext Context.Background lc) = some lc := by
  simp [FromContext, NewContext, Context.Value]

theorem upload_no_engineStop (w : World) (p : Profile) :
    Event.engineStop ∉ (uploadToS3 w p).trace := by
  unfold uploadToS3 deferredClose
  dsimp only
  split_ifs
  · simp
  · cases w.openErr p.localPath <;> cases w.configErr p.region <;>
      cases w.putErr p.bucket (generateS3Path p) <;>
      cases w.closeErr p.localPath <;> simp

theorem start_engine_some (options : List OptionFn) :
    ∃ e, (Start options).p = some e := by
  exact ⟨_, rfl⟩

/-- Every `PutObject` of `Stop` carries the key `generateS3Path` derives. -/
theorem stop_put_key (w : World) (p : Profile) (b k : String)
    (h : Event.putObject b k ∈ (Stop w p).trace) : k = generateS3Path p := by
  unfold Stop uploadToS3 deferredClose at h
  cases hp : p.p with
  | none => simp [hp] at h
  | some e =>
    simp only [hp] at h
    split_ifs at h
    · simp at h
    · revert h
      cases w.openErr p.localPath <;> cases w.configErr p.region <;>
        cases w.putErr p.bucket (generateS3Path p) <;>
        cases w.closeErr p.localPath <;> simp

/-! ## Claims on the option builder -/

/-- C1: for every sequence of recognised options, the local path of the profile
`Start` returns is the path of the last mode-selecting option (`/tmp/cpu.pprof`
for `CPUProfile`, `/tmp/mem.pprof` for `MemProfile`), and the default
`/tmp/cpu.pprof` when the sequence has no mode option. -/
theorem start_localPath_last_mode (opts : List Opt) :
    (startWith opts).localPath =
      match lastOf modePath opts with
      | some path => path
      | none => "/tmp/cpu.pprof" := by
  rw [startWith_localPath]
  cases lastOf modePath opts <;> rfl

/-- C2 fails as stated: with `AWSRegion("")` as the only option, the last region
value supplied is the empty string, but the profile ends with `us-east-1`. -/
theorem start_region_empty_counterexample :
    lastOf regionValue [Opt.region ""] = some "" ∧
      (startWith [Opt.region ""]).region = "us-east-1" ∧
      (startWith [Opt.region ""]).region ≠
        (match lastOf regionValue [Opt.region ""] with
         | some r => r
         | none => "us-east-1") := by
  decide

/-- C2 as amended: the region of the profile `Start` returns is the value of the
last `AWSRegion` option when that value is non-empty, and `us-east-1` when
there is no `AWSRegion` option or the last one carries the empty string. -/
theorem start_region_last_nonempty (opts : List Opt) :
    (startWith opts).region =
      match lastOf regionValue opts with
      | some r => if r = "" then "us-east-1" else r
      | none => "us-east-1" := by
  rw [startWith_eq]
  cases lastOf regionValue opts <;> simp

/-- C7: the engine option list handed to the profiler is the engine options the
caller's options return, in the caller's order, without the options that
return nil, followed by `ProfilePath("/tmp")` as the last element, which
occurs exactly once; its length is the number of `Quiet`, `CPUProfile` and
`MemProfile` options plus one. -/
theorem start_engine_options (opts : List Opt) :
    (startWith opts).engineOptions =
        opts.filterMap engineOption ++ [PkgOption.ProfilePath "/tmp"] ∧
      (startWith opts).engineOptions.getLast? = some (PkgOption.ProfilePath "/tmp") ∧
      (startWith opts).engineOptions.count (PkgOption.ProfilePath "/tmp") = 1 ∧
      (startWith opts).engineOptions.length = opts.countP isEngineOpt + 1 := by
  have he : (startWith opts).engineOptions =
      opts.filterMap engineOption ++ [PkgOption.ProfilePath "/tmp"] := by
    rw [startWith_eq]; rfl
  have hn : PkgOption.ProfilePath "/tmp" ∉ opts.filterMap engineOption := by
    intro hm
    obtain ⟨o, _, ho⟩ := List.mem_filterMap.mp hm
    cases o <;> simp [engineOption] at ho
  have hl := length_filterMap_engineOption opts
  refine ⟨he, ?_, ?_, ?_⟩
  · rw [he, List.getLast?_concat]
  · rw [he, List.count_append, List.count_eq_zero_of_not_mem hn]; simp
  · rw [he, List.length_append, hl]; rfl

/-! ## Claims on the key derivation -/

/-- C4: when the context lookup finds no identity, the key is the local path with
its leading `/tmp/` replaced by `unknown/`, for both local paths `Start` can
produce. -/
theorem key_without_identity (opts : List Opt) (ctx : Context)
    (h : FromContext ctx = none) :
    ((startWith opts).localPath = "/tmp/" ++ "cpu.pprof" ∧
        generateS3PathFrom ctx (startWith opts) = "unknown/" ++ "cpu.pprof") ∨
      ((startWith opts).localPath = "/tmp/" ++ "mem.pprof" ∧
        generateS3PathFrom ctx (startWith opts) = "unknown/" ++ "mem.pprof") := by
  rcases startWith_localPath_cases opts with hp | hp
  · exact Or.inl ⟨hp, generateS3PathFrom_missing ctx _ "cpu.pprof" h hp⟩
  · exact Or.inr ⟨hp, generateS3PathFrom_missing ctx _ "mem.pprof" h hp⟩

/-- C4 at the input of the specification: no identity, memory profile. -/
theorem key_without_identity_witness :
    FromContext Context.Background = none ∧
      (startWith [Opt.mem]).localPath = "/tmp/mem.pprof" ∧
      generateS3PathFrom Context.Background (startWith [Opt.mem]) = "unknown/mem.pprof" := by
  refine ⟨rfl, by decide, ?_⟩
  rcases key_without_identity [Opt.mem] Context.Background rfl with ⟨hp, _⟩ | ⟨_, hk⟩
  · exact absurd hp (by decide)
  · exact hk

/-- C3 on the code: whatever identity the invocation carries (a lookup in the
invocation context would find it), `generateS3Path` looks up
`context.Background()` and never returns `<functionArn>/<requestID>/<file>`;
at the identity (`arn:aws:lambda:f`, `abc-123`) and the CPU profile the key
uploaded is `unknown/cpu.pprof`, not `arn:aws:lambda:f/abc-123/cpu.pprof`. -/
theorem key_ignores_identity (opts : List Opt) (lc : LambdaContext) (rest : String) :
    FromContext (NewContext Context.Background lc) = some lc ∧
      generateS3Path (startWith opts) ≠
        lc.InvokedFunctionArn ++ "/" ++ lc.AwsRequestID ++ "/" ++ rest ∧
      generateS3Path (startWith [Opt.cpu, Opt.bucket "b"]) = "unknown/cpu.pprof" ∧
      generateS3Path (startWith [Opt.cpu, Opt.bucket "b"]) ≠
        "arn:aws:lambda:f/abc-123/cpu.pprof" ∧
      (Stop World.allOk (startWith [Opt.cpu, Opt.bucket "b"])).trace =
        [Event.engineStop, Event.osOpen "/tmp/cpu.pprof",
          Event.loadDefaultConfig "us-east-1",
          Event.putObject "b" "unknown/cpu.pprof", Event.fileClose "/tmp/cpu.pprof"] := by
  refine ⟨fromContext_newContext lc, ?_, by decide, by decide, by decide⟩
  exact unknown_key_ne _ _ _ _ (generateS3Path_startWith opts)

/-- C9 on the code: the key does not depend on the invocation.  Two runs of `Stop`
on sessions built from the same options, in any two environments, pass the
same key to `PutObject`, one of the two `unknown/` keys. -/
theorem keys_collide_across_invocations (opts : List Opt) (w1 w2 : World)
    (b1 k1 b2 k2 : String)
    (h1 : Event.putObject b1 k1 ∈ (Stop w1 (startWith opts)).trace)
    (h2 : Event.putObject b2 k2 ∈ (Stop w2 (startWith opts)).trace) :
    k1 = k2 ∧ (k1 = "unknown/cpu.pprof" ∨ k1 = "unknown/mem.pprof") := by
  have e1 := stop_put_key w1 _ b1 k1 h1
  have e2 := stop_put_key w2 _ b2 k2 h2
  refine ⟨by rw [e1, e2], ?_⟩
  rw [e1]
  exact generateS3Path_startWith opts

/-- C9 on the code, at two invocations of one function, requests `req-1` and
`req-2` (both identities would be found in their invocation contexts): both
uploads of the memory profile go to `unknown/mem.pprof`. -/
theorem keys_collide_across_invocations_witness :
    FromContext (NewContext Context.Background ⟨"req-1", "arn:aws:lambda:f"⟩) =
        some ⟨"req-1", "arn:aws:lambda:f"⟩ ∧
      FromContext (NewContext Context.Background ⟨"req-2", "arn:aws:lambda:f"⟩) =
        some ⟨"req-2", "arn:aws:lambda:f"⟩ ∧
      Event.putObject "b" "unknown/mem.pprof" ∈
        (Stop World.allOk (startWith [Opt.mem, Opt.bucket "b"])).trace ∧
      Event.putObject "b" "unknown/mem.pprof" ∈
        (Stop World.putFails (startWith [Opt.mem, Opt.bucket "b"])).trace ∧
      (("unknown/mem.pprof" : String) = "unknown/mem.pprof" ∧
        (("unknown/mem.pprof" : String) = "unknown/cpu.pprof" ∨
          ("unknown/mem.pprof" : String) = "unknown/mem.pprof")) :=
  ⟨by decide, by decide, by decide, by decide,
    keys_collide_across_invocations [Opt.mem, Opt.bucket "b"] World.allOk World.putFails
      "b" "unknown/mem.pprof" "b" "unknown/mem.pprof" (by decide) (by decide)⟩

/-- C10: `generateS3Path` looks the identity up in `context.Background()`, where
the lookup finds nothing; so every key `Stop` passes to `PutObject` is
`unknown/cpu.pprof` or `unknown/mem.pprof`. -/
theorem stop_put_key_unknown (opts : List Opt) (w : World) (b k : String)
    (h : Event.putObject b k ∈ (Stop w (startWith opts)).trace) :
    FromContext Context.Background = none ∧
      k = generateS3Path (startWith opts) ∧
      (k = "unknown/cpu.pprof" ∨ k = "unknown/mem.pprof") := by
  have hk := stop_put_key w _ b k h
  refine ⟨rfl, hk, ?_⟩
  rw [hk]
  exact generateS3Path_startWith opts

/-- C10 at a session with a bucket in a world where every call succeeds: the
upload is reached and its key is `unknown/cpu.pprof`. -/
theorem stop_put_key_unknown_witness :
    Event.putObject "b" "unknown/cpu.pprof" ∈
        (Stop World.allOk (startWith [Opt.bucket "b"])).trace ∧
      ("unknown/cpu.pprof" = generateS3Path (startWith [Opt.bucket "b"]) ∧
        (("unknown/cpu.pprof" : String) = "unknown/cpu.pprof" ∨
          ("unknown/cpu.pprof" : String) = "unknown/mem.pprof")) :=
  ⟨by decide,
    (stop_put_key_unknown [Opt.bucket "b"] World.allOk "b" "unknown/cpu.pprof" (by decide)).2⟩

/-! ## Claims on `Stop` -/

/-- C5: when the option sequence leaves the bucket empty (no `S3Bucket` option, or
the last one carries the empty string), `uploadToS3` ends at the fatal
`bucket name is not provided` report, and `Stop` neither opens the local
artifact nor calls `PutObject`. -/
theorem stop_empty_bucket (opts : List Opt) (w : World)
    (h : lastOf bucketValue opts = none ∨ lastOf bucketValue opts = some "") :
    uploadToS3 w (startWith opts) =
        ⟨[Event.fatalf "bucket name is not provided, skipping upload to S3"],
          Outcome.exited⟩ ∧
      (Stop w (startWith opts)).trace =
        [Event.engineStop,
          Event.fatalf "bucket name is not provided, skipping upload to S3"] ∧
      (∀ b k, Event.putObject b k ∉ (Stop w (startWith opts)).trace) ∧
      (∀ path, Event.osOpen path ∉ (Stop w (startWith opts)).trace) := by
  have hb : (startWith opts).bucket = "" := by
    rw [startWith_eq]
    rcases h with h | h <;> simp [h]
  have hu : uploadToS3 w (startWith opts) =
      ⟨[Event.fatalf "bucket name is not provided, skipping upload to S3"],
        Outcome.exited⟩ := by
    simp [uploadToS3, hb]
  have hs : (Stop w (startWith opts)).trace =
      [Event.engineStop,
        Event.fatalf "bucket name is not provided, skipping upload to S3"] := by
    obtain ⟨e, he⟩ := start_engine_some (opts.map Opt.fn)
    have he2 : (startWith opts).p = some e := he
    simp [Stop, he2, hu]
  refine ⟨hu, hs, ?_, ?_⟩
  · intro b k; rw [hs]; simp
  · intro path; rw [hs]; simp

/-- C5 at the session with no option at all. -/
theorem stop_empty_bucket_witness :
    (lastOf bucketValue ([] : List Opt) = none ∨
        lastOf bucketValue ([] : List Opt) = some "") ∧
      (Stop World.allOk (startWith [])).trace =
        [Event.engineStop,
          Event.fatalf "bucket name is not provided, skipping upload to S3"] :=
  ⟨Or.inl rfl, (stop_empty_bucket [] World.allOk (Or.inl rfl)).2.1⟩

/-- C6: for every option sequence and every way the later steps go, one call to
`Stop` calls the engine stop exactly once, as the first event, before
anything `uploadToS3` does. -/
theorem stop_engine_once (options : List OptionFn) (w : World) :
    (Stop w (Start options)).trace =
        Event.engineStop :: (uploadToS3 w (Start options)).trace ∧
      Event.engineStop ∉ (uploadToS3 w (Start options)).trace ∧
      (Stop w (Start options)).trace.count Event.engineStop = 1 := by
  have hs : (Stop w (Start options)).trace =
      Event.engineStop :: (uploadToS3 w (Start options)).trace := by
    obtain ⟨e, he⟩ := start_engine_some options
    simp [Stop, he]
  have hn := upload_no_engineStop w (Start options)
  refine ⟨hs, hn, ?_⟩
  rw [hs, List.count_cons_self, List.count_eq_zero_of_not_mem hn]

/-- C8 on the code: with a bucket set and the file opened, a failure to load the
SDK configuration or a failing `PutObject` ends the run at `log.Fatalf`
without the file being closed; only the successful upload closes it. -/
theorem upload_failure_skips_close :
    uploadToS3 World.configFails (startWith [Opt.bucket "b"]) =
        ⟨[Event.osOpen "/tmp/cpu.pprof", Event.loadDefaultConfig "us-east-1",
          Event.fatalf "unable to load SDK config, no config"], Outcome.exited⟩ ∧
      uploadToS3 World.putFails (startWith [Opt.bucket "b"]) =
        ⟨[Event.osOpen "/tmp/cpu.pprof", Event.loadDefaultConfig "us-east-1",
          Event.putObject "b" "unknown/cpu.pprof",
          Event.fatalf "unable to upload file, access denied"], Outcome.exited⟩ ∧
      Event.fileClose "/tmp/cpu.pprof" ∉
        (uploadToS3 World.configFails (startWith [Opt.bucket "b"])).trace ∧
      Event.fileClose "/tmp/cpu.pprof" ∉
        (uploadToS3 World.putFails (startWith [Opt.bucket "b"])).trace ∧
      Event.fileClose "/tmp/cpu.pprof" ∈
        (uploadToS3 World.allOk (startWith [Opt.bucket "b"])).trace := by
  decide

end AwsLambdaProfile
